import Mathlib

/-!
# calico-bpf `counters` command: dump and flush of the BPF counters

A shallow embedding of `felix/cmd/calico-bpf/commands/counters.go` and of
`dumpRuleCounterMap` from `felix/fv/bpf_policy_counter_test.go`.

The Go code is effectful: it talks to the BPF counter maps through the
`counters` package, lists the host interfaces through `net.Interfaces`, prints
through the cobra command and logs through logrus.  The embedding passes an
explicit state around: the state of the outside world (`store`) and the trace of
every effect performed so far (`trace`).  A Go `error` is an `Option String`
(`none` is `nil`), a Go runtime panic (index out of range) is the `none` of the
outer `Option` of `dumpIfaceCounters` and `dumpCounters`.
-/

set_option autoImplicit false

namespace Calico

/-! ## Effects and the outside world -/

/-- One effect performed by the command, in program order. -/
inductive Event where
  | Interfaces
  | NewCounters (iface hook : String)
  | Read (iface hook : String)
  | Flush (iface hook : String)
  | Printf (text : String)
  | LogError (msg : String) (err : Option String)
  | LogInfo (msg : String)
  deriving DecidableEq, Repr

/-- The collaborators of the command that live outside the file.  `Interfaces`
is `net.Interfaces` (only the `Name` of an interface is used).  `Read` is what
the world hands back when the counters of an (interface, hook) pair are read,
an error or a record; `Flush` is the flush of the counters object of the pair.
Each of them may depend on, and change, the state `σ` of the world. -/
structure Env (σ : Type) where
  Interfaces : σ → Except String (List String) × σ
  Read : σ → String → String → Except String (List Nat) × σ
  Flush : σ → String → String → Option String × σ

/-- The constants of the `counters` package that the command uses. -/
structure Layout where
  MaxCounterNumber : Nat
  TotalPackets : Nat
  DroppedByPolicy : Nat
  ErrShortPacket : Nat
  deriving DecidableEq, Repr

/-- The named indices are positions of a record of `MaxCounterNumber` values. -/
def Layout.valid (L : Layout) : Prop :=
  L.TotalPackets < L.MaxCounterNumber ∧ L.DroppedByPolicy < L.MaxCounterNumber ∧
    L.ErrShortPacket < L.MaxCounterNumber

instance (L : Layout) : Decidable L.valid := by
  unfold Layout.valid; exact inferInstance

/-- The state threaded through the command. -/
structure Sys (σ : Type) where
  store : σ
  trace : List Event

/-- Record one effect. -/
def Sys.emit {σ : Type} (s : Sys σ) (e : Event) : Sys σ :=
  { s with trace := s.trace ++ [e] }

/-- What the command has printed: the texts of the `Printf` effects, in order. -/
def output : List Event → List String
  | [] => []
  | Event.Printf text :: rest => text :: output rest
  | _ :: rest => output rest

/-! ## Machine integers and the `values` map -/

/-- The range of the Go type `uint32`: a number is confined to `[0, 2 ^ 32)`;
one already in that range is left as it is. -/
def uint32 (n : Nat) : Nat := n % 2 ^ 32

/-- The call `bpfCounters.Read()`.  Its result is assigned, unconverted, to
`values[hook]`, and `values` is a `map[string][]uint32`: the result is a
`[]uint32`, so every entry of the record lies in the range of `uint32`. -/
def CountersRead {σ : Type} (env : Env σ) (st : σ) (iface hook : String) :
    Except String (List Nat) × σ :=
  match env.Read st iface hook with
  | (Except.ok val, st1) => (Except.ok (val.map uint32), st1)
  | (Except.error err, st1) => (Except.error err, st1)

/-- The Go type `map[string][]uint32`. -/
abbrev Values := List (String × List Nat)

/-- The assignment `values[hook] = val`. -/
def Values.put (values : Values) (hook : String) (val : List Nat) : Values :=
  (hook, val) :: values.filter (fun p => p.1 != hook)

/-- The expression `values[hook]`: a missing key gives the nil slice. -/
def Values.slice (values : Values) (hook : String) : List Nat :=
  (values.lookup hook).getD []

/-- The expression `values[hook][idx]`: `none` is the index-out-of-range panic. -/
def Values.cell (values : Values) (hook : String) (idx : Nat) : Option Nat :=
  (values.slice hook)[idx]?

/-! ## `dumpIfaceCounters` and `dumpCounters` -/

/-- The verb `%d` applied to an unsigned integer. -/
def fmtD (n : Nat) : String := toString n

/-- A table row, the format `caption%d\t\t%d\n` applied to two cells. -/
def fmtRow (caption : String) (ingress egress : Nat) : String :=
  caption ++ fmtD ingress ++ "\t\t" ++ fmtD egress ++ "\n"

/-- The loop `for _, hook := range []string{"ingress", "egress"}` of
`dumpIfaceCounters`, over the hooks that remain. -/
def readHooks {σ : Type} (env : Env σ) (L : Layout) (iface : String) :
    List String → Values → Sys σ → Except String Values × Sys σ
  | [], values, s => (Except.ok values, s)
  | hook :: rest, values, s =>
    let s1 := s.emit (Event.NewCounters iface hook)
    match CountersRead env s1.store iface hook with
    | (Except.error err, st) =>
      (Except.error ("Failed to read bpf counters. hook=" ++ hook ++ " err=" ++ err),
        { store := st, trace := s1.trace ++ [Event.Read iface hook] })
    | (Except.ok val, st) =>
      let s2 : Sys σ := { store := st, trace := s1.trace ++ [Event.Read iface hook] }
      if val.length < L.MaxCounterNumber then
        (Except.error ("Failed to read enough data from bpf counters. hook=" ++ hook), s2)
      else
        readHooks env L iface rest (values.put hook val) s2

/-- One `cmd.Printf(caption%d\t\t%d\n, values["ingress"][idx], values["egress"][idx])`. -/
def printRow {σ : Type} (values : Values) (caption : String) (idx : Nat) (s : Sys σ) :
    Option (Sys σ) :=
  match values.cell "ingress" idx, values.cell "egress" idx with
  | some a, some b => some (s.emit (Event.Printf (fmtRow caption a b)))
  | _, _ => none

/-- The function `dumpIfaceCounters(cmd, iface)`. -/
def dumpIfaceCounters {σ : Type} (env : Env σ) (L : Layout) (iface : String) (s : Sys σ) :
    Option (Option String × Sys σ) :=
  if iface = "" then
    some (some "empty interface name", s)
  else
    let s0 := s.emit (Event.Printf ("===== Interface: " ++ iface ++ " =====\n"))
    match readHooks env L iface ["ingress", "egress"] [] s0 with
    | (Except.error err, s1) => some (some err, s1)
    | (Except.ok values, s1) =>
      let s2 := s1.emit (Event.Printf "\t\t\t\tingress\t\tegress\n")
      match printRow values "Total packets: \t\t\t" L.TotalPackets s2 with
      | none => none
      | some s3 =>
      match printRow values "Accepted by policy: \t\t" L.TotalPackets s3 with
      | none => none
      | some s4 =>
      match printRow values "Dropped by policy: \t\t" L.DroppedByPolicy s4 with
      | none => none
      | some s5 =>
      match printRow values "Dropped short packets: \t\t" L.ErrShortPacket s5 with
      | none => none
      | some s6 => some (none, s6)

/-- The loop `for _, i := range interfaces` of `dumpCounters`. -/
def dumpEach {σ : Type} (env : Env σ) (L : Layout) : List String → Sys σ → Option (Sys σ)
  | [], s => some s
  | name :: rest, s =>
    match dumpIfaceCounters env L name s with
    | none => none
    | some (some _, s1) =>
      dumpEach env L rest (s1.emit (Event.LogError ("Failed to dump " ++ name ++ " counters") none))
    | some (none, s1) => dumpEach env L rest s1

/-- The function `dumpCounters(cmd, iface)`. -/
def dumpCounters {σ : Type} (env : Env σ) (L : Layout) (iface : String) (s : Sys σ) :
    Option (Option String × Sys σ) :=
  if iface ≠ "" then
    dumpIfaceCounters env L iface s
  else
    match env.Interfaces s.store with
    | (Except.error err, st) =>
      some (some ("failed to get list of interfaces. err=" ++ err),
        { store := st, trace := s.trace ++ [Event.Interfaces] })
    | (Except.ok interfaces, st) =>
      match dumpEach env L interfaces { store := st, trace := s.trace ++ [Event.Interfaces] } with
      | none => none
      | some s1 => some (none, s1)

/-! ## `flushCounters` and the `flush` command -/

/-- The loop `for _, hook := range []string{"ingress", "egress"}` of
`flushCounters`, over the hooks that remain. -/
def flushHooks {σ : Type} (env : Env σ) (iface : String) :
    List String → Sys σ → Option String × Sys σ
  | [], s => (none, s)
  | hook :: rest, s =>
    let s1 := s.emit (Event.NewCounters iface hook)
    match env.Flush s1.store iface hook with
    | (some err, st) =>
      (some ("Failed to flush bpf counters for interface=" ++ iface ++ " hook=" ++ hook ++
          ". err=" ++ err),
        { store := st, trace := s1.trace ++ [Event.Flush iface hook] })
    | (none, st) =>
      let s2 : Sys σ := { store := st, trace := s1.trace ++ [Event.Flush iface hook] }
      flushHooks env iface rest
        (s2.emit (Event.LogInfo ("Successfully flushed counters map for interface=" ++ iface ++
          " hook=" ++ hook)))

/-- The function `flushCounters(iface)`. -/
def flushCounters {σ : Type} (env : Env σ) (iface : String) (s : Sys σ) :
    Option String × Sys σ :=
  flushHooks env iface ["ingress", "egress"] s

/-- The `Run` function of `countersFlushCmd`; `flag` is what
`cmd.Flags().GetString("iface")` returns. -/
def countersFlushCmd {σ : Type} (env : Env σ) (flag : Except String String) (s : Sys σ) :
    Sys σ :=
  match flag with
  | Except.error err => s.emit (Event.LogError "Failed to parse interface name." (some err))
  | Except.ok iface =>
    if iface = "" then
      s.emit (Event.LogError "Empty interface name." none)
    else
      match flushCounters env iface s with
      | (some err, s1) => s1.emit (Event.LogError "Failed to flush counter map." (some err))
      | (none, s1) => s1

/-- The `Run` function of `countersDumpCmd`. -/
def countersDumpCmd {σ : Type} (env : Env σ) (L : Layout) (flag : Except String String)
    (s : Sys σ) : Option (Sys σ) :=
  let (iface, s0) :=
    match flag with
    | Except.error err =>
      ("", s.emit (Event.LogError "Failed to parse interface name. Will dump all counters"
        (some err)))
    | Except.ok iface => (iface, s)
  match dumpCounters env L iface s0 with
  | none => none
  | some (some err, s1) => some (s1.emit (Event.LogError "Failed to dump counter map." (some err)))
  | some (none, s1) => some s1

/-! ## Reading aids for the statements -/

/-- A read that cannot be used: it failed, or it holds fewer than
`MaxCounterNumber` values. -/
def unusable (L : Layout) : Except String (List Nat) → Prop
  | Except.error _ => True
  | Except.ok val => val.length < L.MaxCounterNumber

instance (L : Layout) (r : Except String (List Nat)) : Decidable (unusable L r) := by
  cases r <;> unfold unusable <;> exact inferInstance

/-- The header that opens the dump of an interface. -/
def ifaceHeader (iface : String) : String := "===== Interface: " ++ iface ++ " =====\n"

/-- The effects of one hook's turn of the read loop: the counters object is
created, then read. -/
def readTurn (iface hook : String) : List Event :=
  [Event.NewCounters iface hook, Event.Read iface hook]

/-- The four rows of the table, from the cells of the two records. -/
def tableRows (tI tE dI dE eI eE : Nat) : List String :=
  [fmtRow "Total packets: \t\t\t" tI tE,
   fmtRow "Accepted by policy: \t\t" tI tE,
   fmtRow "Dropped by policy: \t\t" dI dE,
   fmtRow "Dropped short packets: \t\t" eI eE]

/-- The interfaces whose ingress counters were read, in the order of the reads. -/
def ingressReads : List Event → List String
  | [] => []
  | Event.Read iface hook :: rest =>
    if hook = "ingress" then iface :: ingressReads rest else ingressReads rest
  | _ :: rest => ingressReads rest

/-! ## The rule-counter dump of the policy-counter test -/

/-- The Go type `counters.PolicyMapMem` as the test uses it (made with `make`,
measured with `len`, ranged over for its `uint64` counts), a map from
rule-counter keys to counts: the nil map, or a table holding one entry per key. -/
inductive PolicyMapMem (K : Type) where
  | nil
  | table (entries : List (K × Nat))
  deriving DecidableEq, Repr

/-- The expression `make(counters.PolicyMapMem)`. -/
def PolicyMapMem.make {K : Type} : PolicyMapMem K := PolicyMapMem.table []

/-- The expression `len(m)`. -/
def PolicyMapMem.len {K : Type} : PolicyMapMem K → Nat
  | PolicyMapMem.nil => 0
  | PolicyMapMem.table entries => entries.length

/-- The assignment `m[k] = v`; on the nil map it panics (`none`). -/
def PolicyMapMem.assign {K : Type} [DecidableEq K] :
    PolicyMapMem K → K → Nat → Option (PolicyMapMem K)
  | PolicyMapMem.nil, _, _ => none
  | PolicyMapMem.table entries, k, v =>
    some (PolicyMapMem.table ((k, v) :: entries.filter (fun p => p.1 ≠ k)))

/-- The Felix node under test, as far as the dump sees it: what enumerating its
rule-counter map yields at the time of the call. -/
structure Felix (K : Type) where
  ruleCounters : Except String (List (K × Nat))

/-- Modelled from the spec: `counters.PolicyMapMemIter(m)`, defined in the
`counters` package; the callback it returns records each enumerated entry in
the mapping `m` (a snapshot mapping from key to count). -/
def PolicyMapMemIter {K : Type} [DecidableEq K] (k : K) (v : Nat) (m : PolicyMapMem K) :
    Option (PolicyMapMem K) :=
  m.assign k v

/-- Modelled from the spec: `dumpBPFMap(felix, rcMap, iter)`, defined in another
file of the `fv` package; it enumerates all live entries of the map in the
store and hands each to the callback.  A failed enumeration fails the test
(`none`). -/
def dumpBPFMap {K : Type} (felix : Felix K)
    (iter : K → Nat → PolicyMapMem K → Option (PolicyMapMem K)) (m : PolicyMapMem K) :
    Option (PolicyMapMem K) :=
  match felix.ruleCounters with
  | Except.error _ => none
  | Except.ok entries => entries.foldlM (fun acc p => iter p.1 p.2 acc) m

/-- The function `dumpRuleCounterMap(felix)`; `rcMap`, the handle that names the
rule-counter map, is what `felix.ruleCounters` enumerates. -/
def dumpRuleCounterMap {K : Type} [DecidableEq K] (felix : Felix K) : Option (PolicyMapMem K) :=
  let m : PolicyMapMem K := PolicyMapMem.make
  dumpBPFMap felix PolicyMapMemIter m

/-! ## Sample worlds -/

/-- A layout of three counters. -/
def demoLayout : Layout :=
  { MaxCounterNumber := 3, TotalPackets := 0, DroppedByPolicy := 1, ErrShortPacket := 2 }

/-- A host with the interfaces `lo` and `eth0`: `lo` has no counters, the
ingress hook of `eth0` has seen 10 packets and the egress hook 4; the state
counts the accesses made. -/
def demoEnv : Env Nat where
  Interfaces := fun st => (Except.ok ["lo", "eth0"], st + 1)
  Read := fun st iface hook =>
    if iface = "lo" then (Except.error "no such map", st + 1)
    else if hook = "ingress" then (Except.ok [10, 3, 1], st + 1)
    else (Except.ok [4, 0, 0], st + 1)
  Flush := fun st _ _ => (none, st + 1)

/-- The start of a run: nothing has happened yet. -/
def Sys.init {σ : Type} (st : σ) : Sys σ := { store := st, trace := [] }

/-! ## Facts about the pieces -/

theorem values_cells (ing eg : List Nat) (idx : Nat) :
    Values.cell (Values.put (Values.put [] "ingress" ing) "egress" eg) "ingress" idx = ing[idx]? ∧
    Values.cell (Values.put (Values.put [] "ingress" ing) "egress" eg) "egress" idx = eg[idx]? := by
  constructor <;> simp [Values.cell, Values.slice, Values.put, List.lookup]

theorem dumpIface_ingress_failed {σ : Type} (env : Env σ) (L : Layout) (iface : String)
    (s : Sys σ) (hne : iface ≠ "") (err : String) (st : σ)
    (h : CountersRead env s.store iface "ingress" = (Except.error err, st)) :
    dumpIfaceCounters env L iface s =
      some (some ("Failed to read bpf counters. hook=ingress err=" ++ err),
        { store := st,
          trace := s.trace ++ Event.Printf (ifaceHeader iface) :: readTurn iface "ingress" }) := by
  simp [dumpIfaceCounters, hne, readHooks, Sys.emit, h, ifaceHeader, readTurn]

theorem dumpIface_ingress_short {σ : Type} (env : Env σ) (L : Layout) (iface : String)
    (s : Sys σ) (hne : iface ≠ "") (ing : List Nat) (st : σ)
    (h : CountersRead env s.store iface "ingress" = (Except.ok ing, st))
    (hlen : ing.length < L.MaxCounterNumber) :
    dumpIfaceCounters env L iface s =
      some (some "Failed to read enough data from bpf counters. hook=ingress",
        { store := st,
          trace := s.trace ++ Event.Printf (ifaceHeader iface) :: readTurn iface "ingress" }) := by
  simp [dumpIfaceCounters, hne, readHooks, Sys.emit, h, hlen, ifaceHeader, readTurn]

theorem dumpIface_egress_failed {σ : Type} (env : Env σ) (L : Layout) (iface : String)
    (s : Sys σ) (hne : iface ≠ "") (ing : List Nat) (err : String) (st1 st2 : σ)
    (h1 : CountersRead env s.store iface "ingress" = (Except.ok ing, st1))
    (hlen : L.MaxCounterNumber ≤ ing.length)
    (h2 : CountersRead env st1 iface "egress" = (Except.error err, st2)) :
    dumpIfaceCounters env L iface s =
      some (some ("Failed to read bpf counters. hook=egress err=" ++ err),
        { store := st2,
          trace := s.trace ++ Event.Printf (ifaceHeader iface) ::
            (readTurn iface "ingress" ++ readTurn iface "egress") }) := by
  simp [dumpIfaceCounters, hne, readHooks, Sys.emit, h1, h2, Nat.not_lt.mpr hlen, ifaceHeader,
    readTurn]

theorem dumpIface_egress_short {σ : Type} (env : Env σ) (L : Layout) (iface : String)
    (s : Sys σ) (hne : iface ≠ "") (ing eg : List Nat) (st1 st2 : σ)
    (h1 : CountersRead env s.store iface "ingress" = (Except.ok ing, st1))
    (hlen : L.MaxCounterNumber ≤ ing.length)
    (h2 : CountersRead env st1 iface "egress" = (Except.ok eg, st2))
    (hlen2 : eg.length < L.MaxCounterNumber) :
    dumpIfaceCounters env L iface s =
      some (some "Failed to read enough data from bpf counters. hook=egress",
        { store := st2,
          trace := s.trace ++ Event.Printf (ifaceHeader iface) ::
            (readTurn iface "ingress" ++ readTurn iface "egress") }) := by
  simp [dumpIfaceCounters, hne, readHooks, Sys.emit, h1, h2, Nat.not_lt.mpr hlen, hlen2,
    ifaceHeader, readTurn]

theorem dumpIface_both_read {σ : Type} (env : Env σ) (L : Layout) (iface : String)
    (s : Sys σ) (hne : iface ≠ "") (ing eg : List Nat) (st1 st2 : σ)
    (h1 : CountersRead env s.store iface "ingress" = (Except.ok ing, st1))
    (hlen : L.MaxCounterNumber ≤ ing.length)
    (h2 : CountersRead env st1 iface "egress" = (Except.ok eg, st2))
    (hlen2 : L.MaxCounterNumber ≤ eg.length)
    (tI tE dI dE eI eE : Nat)
    (htI : ing[L.TotalPackets]? = some tI) (htE : eg[L.TotalPackets]? = some tE)
    (hdI : ing[L.DroppedByPolicy]? = some dI) (hdE : eg[L.DroppedByPolicy]? = some dE)
    (heI : ing[L.ErrShortPacket]? = some eI) (heE : eg[L.ErrShortPacket]? = some eE) :
    dumpIfaceCounters env L iface s =
      some (none,
        { store := st2,
          trace := s.trace ++ Event.Printf (ifaceHeader iface) ::
            (readTurn iface "ingress" ++ readTurn iface "egress" ++
              Event.Printf "\t\t\t\tingress\t\tegress\n" ::
                (tableRows tI tE dI dE eI eE).map Event.Printf) }) := by
  have c := values_cells ing eg
  simp [dumpIfaceCounters, hne, readHooks, Sys.emit, h1, h2, Nat.not_lt.mpr hlen,
    Nat.not_lt.mpr hlen2, ifaceHeader, readTurn, printRow, c, htI, htE, hdI, hdE, heI, heE,
    tableRows]

theorem cell_exists (l : List Nat) (idx n : Nat) (hidx : idx < n) (hlen : n ≤ l.length) :
    ∃ a, l[idx]? = some a :=
  ⟨l[idx], List.getElem?_eq_getElem (Nat.lt_of_lt_of_le hidx hlen)⟩

theorem output_append (a b : List Event) : output (a ++ b) = output a ++ output b := by
  induction a with
  | nil => rfl
  | cons e rest ih => cases e <;> simp [output, ih]

theorem output_readTurn (iface hook : String) : output (readTurn iface hook) = [] := rfl

theorem output_printfs (texts : List String) : output (texts.map Event.Printf) = texts := by
  induction texts with
  | nil => rfl
  | cons t rest ih => simp [output, ih]

theorem dumpIfaceCounters_empty_state {σ : Type} (env : Env σ) (L : Layout) (s : Sys σ) :
    dumpIfaceCounters env L "" s = some (some "empty interface name", s) := by
  simp [dumpIfaceCounters]

/-- With a valid layout, two usable reads end in the full table and `nil`. -/
theorem dumpIface_table {σ : Type} (env : Env σ) (L : Layout) (iface : String)
    (s : Sys σ) (hL : L.valid) (hne : iface ≠ "") (ing eg : List Nat) (st1 st2 : σ)
    (h1 : CountersRead env s.store iface "ingress" = (Except.ok ing, st1))
    (hlen : L.MaxCounterNumber ≤ ing.length)
    (h2 : CountersRead env st1 iface "egress" = (Except.ok eg, st2))
    (hlen2 : L.MaxCounterNumber ≤ eg.length) :
    ∃ tI tE dI dE eI eE : Nat,
      ing[L.TotalPackets]? = some tI ∧ eg[L.TotalPackets]? = some tE ∧
      ing[L.DroppedByPolicy]? = some dI ∧ eg[L.DroppedByPolicy]? = some dE ∧
      ing[L.ErrShortPacket]? = some eI ∧ eg[L.ErrShortPacket]? = some eE ∧
      dumpIfaceCounters env L iface s =
        some (none,
          { store := st2,
            trace := s.trace ++ Event.Printf (ifaceHeader iface) ::
              (readTurn iface "ingress" ++ readTurn iface "egress" ++
                Event.Printf "\t\t\t\tingress\t\tegress\n" ::
                  (tableRows tI tE dI dE eI eE).map Event.Printf) }) := by
  obtain ⟨hT, hD, hE⟩ := hL
  obtain ⟨tI, htI⟩ := cell_exists ing _ _ hT hlen
  obtain ⟨tE, htE⟩ := cell_exists eg _ _ hT hlen2
  obtain ⟨dI, hdI⟩ := cell_exists ing _ _ hD hlen
  obtain ⟨dE, hdE⟩ := cell_exists eg _ _ hD hlen2
  obtain ⟨eI, heI⟩ := cell_exists ing _ _ hE hlen
  obtain ⟨eE, heE⟩ := cell_exists eg _ _ hE hlen2
  exact ⟨tI, tE, dI, dE, eI, eE, htI, htE, hdI, hdE, heI, heE,
    dumpIface_both_read env L iface s hne ing eg st1 st2 h1 hlen h2 hlen2
      tI tE dI dE eI eE htI htE hdI hdE heI heE⟩

/-- Whatever the layout, two usable reads never end in an error: the call
either prints its table and returns `nil`, or panics on an index. -/
theorem dumpIface_usable_no_error {σ : Type} (env : Env σ) (L : Layout) (iface : String)
    (s : Sys σ) (hne : iface ≠ "") (ing eg : List Nat) (st1 st2 : σ)
    (h1 : CountersRead env s.store iface "ingress" = (Except.ok ing, st1))
    (hlen : L.MaxCounterNumber ≤ ing.length)
    (h2 : CountersRead env st1 iface "egress" = (Except.ok eg, st2))
    (hlen2 : L.MaxCounterNumber ≤ eg.length) (err : String) (s1 : Sys σ) :
    dumpIfaceCounters env L iface s ≠ some (some err, s1) := by
  simp only [dumpIfaceCounters, hne, if_false, readHooks, Sys.emit, h1, h2,
    Nat.not_lt.mpr hlen, Nat.not_lt.mpr hlen2]
  split
  · simp
  · split
    · simp
    · split
      · simp
      · split <;> simp

/-! ## `dumpIfaceCounters` -/

/-- C1: for a non-empty interface name (and named indices below
`MaxCounterNumber`), `dumpIfaceCounters` returns, and it returns an error exactly
when the ingress read, or the egress read issued after it, fails or holds fewer
than `MaxCounterNumber` values; otherwise it returns `nil`. -/
theorem dumpIfaceCounters_error_iff {σ : Type} (env : Env σ) (L : Layout) (iface : String)
    (s : Sys σ) (hL : L.valid) (hne : iface ≠ "") :
    ∃ res s1, dumpIfaceCounters env L iface s = some (res, s1) ∧
      (res ≠ none ↔
        unusable L (CountersRead env s.store iface "ingress").1 ∨
        unusable L
          (CountersRead env (CountersRead env s.store iface "ingress").2 iface "egress").1) := by
  rcases h1 : CountersRead env s.store iface "ingress" with ⟨r1, st1⟩
  cases r1 with
  | error err =>
    exact ⟨_, _, dumpIface_ingress_failed env L iface s hne err st1 h1, by simp [unusable]⟩
  | ok ing =>
    by_cases hlen : ing.length < L.MaxCounterNumber
    · exact ⟨_, _, dumpIface_ingress_short env L iface s hne ing st1 h1 hlen,
        by simp [unusable, hlen]⟩
    · have hlen1 : L.MaxCounterNumber ≤ ing.length := Nat.le_of_not_lt hlen
      rcases h2 : CountersRead env st1 iface "egress" with ⟨r2, st2⟩
      cases r2 with
      | error err =>
        exact ⟨_, _, dumpIface_egress_failed env L iface s hne ing err st1 st2 h1 hlen1 h2,
          by simp [unusable]⟩
      | ok eg =>
        by_cases hlen2 : eg.length < L.MaxCounterNumber
        · exact ⟨_, _, dumpIface_egress_short env L iface s hne ing eg st1 st2 h1 hlen1 h2 hlen2,
            by simp [unusable, hlen2]⟩
        · obtain ⟨tI, tE, dI, dE, eI, eE, -, -, -, -, -, -, hrun⟩ :=
            dumpIface_table env L iface s hL hne ing eg st1 st2 h1 hlen1 h2
              (Nat.le_of_not_lt hlen2)
          exact ⟨_, _, hrun, by simp [unusable, hlen, hlen2]⟩

/-- C1, at a concrete input: on the sample host the ingress and egress records of
`eth0` are both long enough, and the call returns `nil`. -/
theorem dumpIfaceCounters_error_iff_witness :
    demoLayout.valid ∧ "eth0" ≠ "" ∧
      ∃ res s1, dumpIfaceCounters demoEnv demoLayout "eth0" (Sys.init 0) = some (res, s1) ∧
        (res ≠ none ↔
          unusable demoLayout (CountersRead demoEnv (Sys.init 0).store "eth0" "ingress").1 ∨
          unusable demoLayout
            (CountersRead demoEnv (CountersRead demoEnv (Sys.init 0).store "eth0" "ingress").2
              "eth0" "egress").1) :=
  ⟨by decide, by decide,
    dumpIfaceCounters_error_iff demoEnv demoLayout "eth0" (Sys.init 0) (by decide) (by decide)⟩

/-- C2 fails as stated: on the sample host the ingress read of `lo` fails, the
call returns that error, and the header line of the interface has already been
printed. -/
theorem dumpIfaceCounters_failure_prints_header :
    (dumpIfaceCounters demoEnv demoLayout "lo" (Sys.init 0)).map
        (fun r => (r.1, output r.2.trace)) =
      some (some "Failed to read bpf counters. hook=ingress err=no such map",
        ["===== Interface: lo =====\n"]) := by
  rw [dumpIface_ingress_failed demoEnv demoLayout "lo" (Sys.init 0) (by decide)
    "no such map" 1 (by rfl)]
  rfl

/-- C2, amended: for a non-empty interface name, when `dumpIfaceCounters` returns
an error it has printed the header line of the interface and nothing else:
neither the column header nor a counter row. -/
theorem dumpIfaceCounters_failure_output {σ : Type} (env : Env σ) (L : Layout)
    (iface : String) (s : Sys σ) (err : String) (s1 : Sys σ) (hne : iface ≠ "")
    (hfail : dumpIfaceCounters env L iface s = some (some err, s1)) :
    output s1.trace = output s.trace ++ [ifaceHeader iface] := by
  rcases h1 : CountersRead env s.store iface "ingress" with ⟨r1, st1⟩
  cases r1 with
  | error e =>
    rw [dumpIface_ingress_failed env L iface s hne e st1 h1] at hfail
    simp only [Option.some.injEq, Prod.mk.injEq] at hfail
    rw [← hfail.2]
    simp [output_append, output, output_readTurn]
  | ok ing =>
    by_cases hlen : ing.length < L.MaxCounterNumber
    · rw [dumpIface_ingress_short env L iface s hne ing st1 h1 hlen] at hfail
      simp only [Option.some.injEq, Prod.mk.injEq] at hfail
      rw [← hfail.2]
      simp [output_append, output, output_readTurn]
    · have hlen1 : L.MaxCounterNumber ≤ ing.length := Nat.le_of_not_lt hlen
      rcases h2 : CountersRead env st1 iface "egress" with ⟨r2, st2⟩
      cases r2 with
      | error e =>
        rw [dumpIface_egress_failed env L iface s hne ing e st1 st2 h1 hlen1 h2] at hfail
        simp only [Option.some.injEq, Prod.mk.injEq] at hfail
        rw [← hfail.2]
        simp [output_append, output, output_readTurn]
      | ok eg =>
        by_cases hlen2 : eg.length < L.MaxCounterNumber
        · rw [dumpIface_egress_short env L iface s hne ing eg st1 st2 h1 hlen1 h2 hlen2] at hfail
          simp only [Option.some.injEq, Prod.mk.injEq] at hfail
          rw [← hfail.2]
          simp [output_append, output, output_readTurn]
        · exact absurd hfail
            (dumpIface_usable_no_error env L iface s hne ing eg st1 st2 h1 hlen1 h2
              (Nat.le_of_not_lt hlen2) err s1)

/-- C2 amended, at a concrete input: the failed dump of `lo` on the sample host. -/
theorem dumpIfaceCounters_failure_output_witness :
    "lo" ≠ "" ∧
      dumpIfaceCounters demoEnv demoLayout "lo" (Sys.init 0) =
        some (some "Failed to read bpf counters. hook=ingress err=no such map",
          { store := 1,
            trace := [Event.Printf "===== Interface: lo =====\n",
              Event.NewCounters "lo" "ingress", Event.Read "lo" "ingress"] }) ∧
      output [Event.Printf "===== Interface: lo =====\n",
          Event.NewCounters "lo" "ingress", Event.Read "lo" "ingress"] =
        output (Sys.init (0 : Nat)).trace ++ [ifaceHeader "lo"] :=
  ⟨by decide, by rfl,
    dumpIfaceCounters_failure_output demoEnv demoLayout "lo" (Sys.init 0)
      "Failed to read bpf counters. hook=ingress err=no such map"
      { store := 1,
        trace := [Event.Printf "===== Interface: lo =====\n",
          Event.NewCounters "lo" "ingress", Event.Read "lo" "ingress"] }
      (by decide) (by rfl)⟩

/-- C4: called with the empty interface name, `dumpIfaceCounters` returns the
error `empty interface name` and leaves the state as it found it: no counters
object is created, no read is issued, nothing is printed. -/
theorem dumpIfaceCounters_empty_name {σ : Type} (env : Env σ) (L : Layout) (s : Sys σ) :
    dumpIfaceCounters env L "" s = some (some "empty interface name", s) := by
  simp [dumpIfaceCounters]

/-- C7: for a non-empty interface name whose ingress and egress records are both
read with at least `MaxCounterNumber` values, `dumpIfaceCounters` returns `nil`
having printed the interface header, the column header and then one row per
metric, in the order Total packets, Accepted by policy, Dropped by policy,
Dropped short packets, each with the ingress cell before the egress cell; the
Total and the Accepted rows both show index `TotalPackets`, the Dropped row
index `DroppedByPolicy`, the short-packets row index `ErrShortPacket`. -/
theorem dumpIfaceCounters_rows {σ : Type} (env : Env σ) (L : Layout) (iface : String)
    (s : Sys σ) (ing eg : List Nat) (st1 st2 : σ) (hL : L.valid) (hne : iface ≠ "")
    (h1 : CountersRead env s.store iface "ingress" = (Except.ok ing, st1))
    (hlen1 : L.MaxCounterNumber ≤ ing.length)
    (h2 : CountersRead env st1 iface "egress" = (Except.ok eg, st2))
    (hlen2 : L.MaxCounterNumber ≤ eg.length) :
    ∃ tI tE dI dE eI eE : Nat,
      ing[L.TotalPackets]? = some tI ∧ eg[L.TotalPackets]? = some tE ∧
      ing[L.DroppedByPolicy]? = some dI ∧ eg[L.DroppedByPolicy]? = some dE ∧
      ing[L.ErrShortPacket]? = some eI ∧ eg[L.ErrShortPacket]? = some eE ∧
      ∃ s1, dumpIfaceCounters env L iface s = some (none, s1) ∧
        output s1.trace = output s.trace ++
          ["===== Interface: " ++ iface ++ " =====\n",
           "\t\t\t\tingress\t\tegress\n",
           "Total packets: \t\t\t" ++ fmtD tI ++ "\t\t" ++ fmtD tE ++ "\n",
           "Accepted by policy: \t\t" ++ fmtD tI ++ "\t\t" ++ fmtD tE ++ "\n",
           "Dropped by policy: \t\t" ++ fmtD dI ++ "\t\t" ++ fmtD dE ++ "\n",
           "Dropped short packets: \t\t" ++ fmtD eI ++ "\t\t" ++ fmtD eE ++ "\n"] := by
  obtain ⟨tI, tE, dI, dE, eI, eE, htI, htE, hdI, hdE, heI, heE, hrun⟩ :=
    dumpIface_table env L iface s hL hne ing eg st1 st2 h1 hlen1 h2 hlen2
  refine ⟨tI, tE, dI, dE, eI, eE, htI, htE, hdI, hdE, heI, heE, _, hrun, ?_⟩
  simp [output_append, output, output_readTurn, output_printfs, tableRows, fmtRow, ifaceHeader]

/-- C7, at a concrete input: the dump of `eth0` on the sample host. -/
theorem dumpIfaceCounters_rows_witness :
    demoLayout.valid ∧ "eth0" ≠ "" ∧
      CountersRead demoEnv (Sys.init 0).store "eth0" "ingress" = (Except.ok [10, 3, 1], 1) ∧
      CountersRead demoEnv 1 "eth0" "egress" = (Except.ok [4, 0, 0], 2) ∧
      ∃ tI tE dI dE eI eE : Nat,
        [10, 3, 1][demoLayout.TotalPackets]? = some tI ∧
        [4, 0, 0][demoLayout.TotalPackets]? = some tE ∧
        [10, 3, 1][demoLayout.DroppedByPolicy]? = some dI ∧
        [4, 0, 0][demoLayout.DroppedByPolicy]? = some dE ∧
        [10, 3, 1][demoLayout.ErrShortPacket]? = some eI ∧
        [4, 0, 0][demoLayout.ErrShortPacket]? = some eE ∧
        ∃ s1, dumpIfaceCounters demoEnv demoLayout "eth0" (Sys.init 0) = some (none, s1) ∧
          output s1.trace = output (Sys.init (0 : Nat)).trace ++
            ["===== Interface: " ++ "eth0" ++ " =====\n",
             "\t\t\t\tingress\t\tegress\n",
             "Total packets: \t\t\t" ++ fmtD tI ++ "\t\t" ++ fmtD tE ++ "\n",
             "Accepted by policy: \t\t" ++ fmtD tI ++ "\t\t" ++ fmtD tE ++ "\n",
             "Dropped by policy: \t\t" ++ fmtD dI ++ "\t\t" ++ fmtD dE ++ "\n",
             "Dropped short packets: \t\t" ++ fmtD eI ++ "\t\t" ++ fmtD eE ++ "\n"] :=
  ⟨by decide, by decide, by rfl, by rfl,
    dumpIfaceCounters_rows demoEnv demoLayout "eth0" (Sys.init 0) [10, 3, 1] [4, 0, 0] 1 2
      (by decide) (by decide) (by rfl) (by decide) (by rfl) (by decide)⟩

theorem ingressReads_append (a b : List Event) :
    ingressReads (a ++ b) = ingressReads a ++ ingressReads b := by
  induction a with
  | nil => rfl
  | cons e rest ih =>
    cases e with
    | Read iface hook => by_cases h : hook = "ingress" <;> simp [ingressReads, h, ih]
    | _ => simp [ingressReads, ih]

/-- With a valid layout a dump of one interface returns, and what it adds to the
trace holds one ingress read, of that interface, unless the name is empty. -/
theorem dumpIface_ingressReads {σ : Type} (env : Env σ) (L : Layout) (hL : L.valid)
    (iface : String) (s : Sys σ) :
    ∃ res s1, dumpIfaceCounters env L iface s = some (res, s1) ∧
      ingressReads s1.trace = ingressReads s.trace ++ [iface].filter (fun n => n ≠ "") := by
  by_cases hne : iface = ""
  · subst hne
    exact ⟨_, _, dumpIfaceCounters_empty_state env L s, by simp⟩
  · have hturn : ∀ t : List Event,
        ingressReads (s.trace ++ Event.Printf (ifaceHeader iface) ::
          (readTurn iface "ingress" ++ t)) =
        ingressReads s.trace ++ iface :: ingressReads t := by
      intro t
      simp [ingressReads_append, ingressReads, readTurn]
    have hegress : ingressReads (readTurn iface "egress") = [] := by
      simp [ingressReads, readTurn]
    rcases h1 : CountersRead env s.store iface "ingress" with ⟨r1, st1⟩
    cases r1 with
    | error err =>
      refine ⟨_, _, dumpIface_ingress_failed env L iface s hne err st1 h1, ?_⟩
      simpa [hne, ingressReads] using hturn []
    | ok ing =>
      by_cases hlen : ing.length < L.MaxCounterNumber
      · refine ⟨_, _, dumpIface_ingress_short env L iface s hne ing st1 h1 hlen, ?_⟩
        simpa [hne, ingressReads] using hturn []
      · have hlen1 : L.MaxCounterNumber ≤ ing.length := Nat.le_of_not_lt hlen
        rcases h2 : CountersRead env st1 iface "egress" with ⟨r2, st2⟩
        cases r2 with
        | error err =>
          refine ⟨_, _,
            dumpIface_egress_failed env L iface s hne ing err st1 st2 h1 hlen1 h2, ?_⟩
          simp only [hturn, hegress, hne, ne_eq, not_false_eq_true, decide_True,
            List.filter_cons_of_pos, List.filter_nil]
        | ok eg =>
          by_cases hlen2 : eg.length < L.MaxCounterNumber
          · refine ⟨_, _,
              dumpIface_egress_short env L iface s hne ing eg st1 st2 h1 hlen1 h2 hlen2, ?_⟩
            simp only [hturn, hegress, hne, ne_eq, not_false_eq_true, decide_True,
              List.filter_cons_of_pos, List.filter_nil]
          · obtain ⟨tI, tE, dI, dE, eI, eE, -, -, -, -, -, -, hrun⟩ :=
              dumpIface_table env L iface s hL hne ing eg st1 st2 h1 hlen1 h2
                (Nat.le_of_not_lt hlen2)
            refine ⟨_, _, hrun, ?_⟩
            have hrows : ingressReads (Event.Printf "\t\t\t\tingress\t\tegress\n" ::
                (tableRows tI tE dI dE eI eE).map Event.Printf) = [] := by
              simp [ingressReads, tableRows]
            simp only [List.append_assoc, hturn, ingressReads_append, hegress, hrows, hne, ne_eq,
              not_false_eq_true, decide_True, List.filter_cons_of_pos, List.filter_nil,
              List.nil_append]

/-- With a valid layout the loop over the interfaces runs to its end, whatever
each dump returns, and reads the ingress counters of every named interface in
list order. -/
theorem dumpEach_ingressReads {σ : Type} (env : Env σ) (L : Layout) (hL : L.valid)
    (names : List String) (s : Sys σ) :
    ∃ s1, dumpEach env L names s = some s1 ∧
      ingressReads s1.trace = ingressReads s.trace ++ names.filter (fun n => n ≠ "") := by
  induction names generalizing s with
  | nil => exact ⟨s, rfl, by simp⟩
  | cons name rest ih =>
    obtain ⟨res, s1, hrun, hreads⟩ := dumpIface_ingressReads env L hL name s
    cases res with
    | none =>
      obtain ⟨s2, hrest, hreads2⟩ := ih s1
      refine ⟨s2, by simp [dumpEach, hrun, hrest], ?_⟩
      rw [hreads2, hreads, List.append_assoc, ← List.filter_append]
      rfl
    | some err =>
      obtain ⟨s2, hrest, hreads2⟩ :=
        ih (s1.emit (Event.LogError ("Failed to dump " ++ name ++ " counters") none))
      refine ⟨s2, by simp [dumpEach, hrun, hrest], ?_⟩
      rw [hreads2]
      simp only [Sys.emit, ingressReads_append, ingressReads, List.append_nil]
      rw [hreads, List.append_assoc, ← List.filter_append]
      rfl

/-- C3: with an empty target interface (and named indices below
`MaxCounterNumber`), when the enumeration of the host interfaces succeeds
`dumpCounters` returns `nil`, having read the ingress counters of every named
interface of the list in list order, those after a failed dump included; when
the enumeration fails it returns that failure, and this is its only error. -/
theorem dumpCounters_all_interfaces {σ : Type} (env : Env σ) (L : Layout) (s : Sys σ)
    (hL : L.valid) :
    (∀ names st, env.Interfaces s.store = (Except.ok names, st) →
      ∃ s1, dumpCounters env L "" s = some (none, s1) ∧
        ingressReads s1.trace = ingressReads s.trace ++ names.filter (fun n => n ≠ "")) ∧
    (∀ err st, env.Interfaces s.store = (Except.error err, st) →
      dumpCounters env L "" s =
        some (some ("failed to get list of interfaces. err=" ++ err),
          { store := st, trace := s.trace ++ [Event.Interfaces] })) ∧
    (∀ err s1, dumpCounters env L "" s = some (some err, s1) →
      ∃ e st, env.Interfaces s.store = (Except.error e, st)) := by
  refine ⟨?_, ?_, ?_⟩
  · intro names st hnames
    obtain ⟨s1, hrun, hreads⟩ :=
      dumpEach_ingressReads env L hL names { store := st, trace := s.trace ++ [Event.Interfaces] }
    refine ⟨s1, by simp [dumpCounters, hnames, hrun], ?_⟩
    rw [hreads]
    simp [ingressReads_append, ingressReads]
  · intro err st herr
    simp [dumpCounters, herr]
  · intro err s1 hrun
    rcases hI : env.Interfaces s.store with ⟨r, st⟩
    cases r with
    | error e => exact ⟨e, st, rfl⟩
    | ok names =>
      obtain ⟨s2, hrun2, -⟩ :=
        dumpEach_ingressReads env L hL names
          { store := st, trace := s.trace ++ [Event.Interfaces] }
      simp [dumpCounters, hI, hrun2] at hrun

/-- C3, at a concrete input: on the sample host the dump of `lo` fails, and the
ingress counters of `eth0`, which comes after it, are read all the same. -/
theorem dumpCounters_all_interfaces_witness :
    demoLayout.valid ∧
      ∃ s1, dumpCounters demoEnv demoLayout "" (Sys.init 0) = some (none, s1) ∧
        ingressReads s1.trace = ["lo", "eth0"] :=
  ⟨by decide,
    (dumpCounters_all_interfaces demoEnv demoLayout (Sys.init 0) (by decide)).1
      ["lo", "eth0"] 1 (by rfl)⟩

/-! ## `flushCounters` and the `flush` command -/

/-- C5 fails as stated: `flushCounters` has no check of the name.  Called with the
empty interface name on the sample host, where every flush succeeds, it flushes
the ingress and the egress hook of the interface `""` and returns `nil`. -/
theorem flushCounters_empty_name_flushes :
    flushCounters demoEnv "" (Sys.init 0) =
      (none,
        { store := 2,
          trace := [Event.NewCounters "" "ingress", Event.Flush "" "ingress",
            Event.LogInfo "Successfully flushed counters map for interface= hook=ingress",
            Event.NewCounters "" "egress", Event.Flush "" "egress",
            Event.LogInfo "Successfully flushed counters map for interface= hook=egress"] }) := by
  rfl

/-- C5, amended: the `flush` command run with the empty interface name logs the
error `Empty interface name.` and does nothing else, for every state of the
store: `flushCounters` is not called, no counters object is created and no hook
is flushed. -/
theorem countersFlushCmd_empty_name {σ : Type} (env : Env σ) (s : Sys σ) :
    countersFlushCmd env (Except.ok "") s =
      { store := s.store,
        trace := s.trace ++ [Event.LogError "Empty interface name." none] } := by
  simp [countersFlushCmd, Sys.emit]

/-- C6: `flushCounters` flushes the ingress hook first and the egress hook
second.  If the ingress flush fails, the egress hook is not touched and the
error names the interface and `hook=ingress`; if the ingress flush succeeds and
the egress flush fails, the error names `hook=egress`; it returns `nil` exactly
when both flushes succeed. -/
theorem flushCounters_hooks {σ : Type} (env : Env σ) (iface : String) (s : Sys σ) :
    (∀ err st, env.Flush s.store iface "ingress" = (some err, st) →
      flushCounters env iface s =
        (some ("Failed to flush bpf counters for interface=" ++ iface ++ " hook=ingress. err=" ++
            err),
          { store := st,
            trace := s.trace ++
              [Event.NewCounters iface "ingress", Event.Flush iface "ingress"] })) ∧
    (∀ st1 err st2, env.Flush s.store iface "ingress" = (none, st1) →
      env.Flush st1 iface "egress" = (some err, st2) →
      flushCounters env iface s =
        (some ("Failed to flush bpf counters for interface=" ++ iface ++ " hook=egress. err=" ++
            err),
          { store := st2,
            trace := s.trace ++
              [Event.NewCounters iface "ingress", Event.Flush iface "ingress",
               Event.LogInfo ("Successfully flushed counters map for interface=" ++ iface ++
                 " hook=ingress"),
               Event.NewCounters iface "egress", Event.Flush iface "egress"] })) ∧
    (∀ st1 st2, env.Flush s.store iface "ingress" = (none, st1) →
      env.Flush st1 iface "egress" = (none, st2) →
      flushCounters env iface s =
        (none,
          { store := st2,
            trace := s.trace ++
              [Event.NewCounters iface "ingress", Event.Flush iface "ingress",
               Event.LogInfo ("Successfully flushed counters map for interface=" ++ iface ++
                 " hook=ingress"),
               Event.NewCounters iface "egress", Event.Flush iface "egress",
               Event.LogInfo ("Successfully flushed counters map for interface=" ++ iface ++
                 " hook=egress")] })) ∧
    ((flushCounters env iface s).1 = none ↔
      (env.Flush s.store iface "ingress").1 = none ∧
        (env.Flush (env.Flush s.store iface "ingress").2 iface "egress").1 = none) := by
  refine ⟨?_, ?_, ?_, ?_⟩
  · intro err st h
    simp [flushCounters, flushHooks, Sys.emit, h]
    simp only [String.append_assoc]
    rfl
  · intro st1 err st2 h1 h2
    simp [flushCounters, flushHooks, Sys.emit, h1, h2]
    simp only [String.append_assoc]
    exact ⟨rfl, rfl⟩
  · intro st1 st2 h1 h2
    simp [flushCounters, flushHooks, Sys.emit, h1, h2]
    simp only [String.append_assoc]
    exact ⟨rfl, rfl⟩
  · rcases h1 : env.Flush s.store iface "ingress" with ⟨r1, st1⟩
    cases r1 with
    | some err => simp [flushCounters, flushHooks, Sys.emit, h1]
    | none =>
      rcases h2 : env.Flush st1 iface "egress" with ⟨r2, st2⟩
      cases r2 <;> simp [flushCounters, flushHooks, Sys.emit, h1, h2]

/-! ## `dumpRuleCounterMap` -/

/-- Recording the enumerated entries in a table never fails; every entry of the
result was in the table before or comes from the enumeration, and every key of
either is a key of the result. -/
theorem iter_fold {K : Type} [DecidableEq K] (entries acc : List (K × Nat)) :
    ∃ t, List.foldlM (fun m p => PolicyMapMemIter p.1 p.2 m) (PolicyMapMem.table acc) entries =
        some (PolicyMapMem.table t) ∧
      (∀ p, p ∈ t → p ∈ acc ∨ p ∈ entries) ∧
      (∀ p, p ∈ acc ∨ p ∈ entries → ∃ q, q ∈ t ∧ q.1 = p.1) := by
  induction entries generalizing acc with
  | nil =>
    refine ⟨acc, rfl, fun p hp => Or.inl hp, ?_⟩
    rintro p (hp | hp)
    · exact ⟨p, hp, rfl⟩
    · cases hp
  | cons e rest ih =>
    obtain ⟨t, hrun, hfrom, hkeys⟩ := ih ((e.1, e.2) :: acc.filter (fun p => p.1 ≠ e.1))
    refine ⟨t, ?_, ?_, ?_⟩
    · simpa [List.foldlM, PolicyMapMemIter, PolicyMapMem.assign] using hrun
    · intro p hp
      rcases hfrom p hp with h | h
      · rcases List.mem_cons.mp h with h | h
        · exact Or.inr (by rw [h]; exact List.mem_cons_self _ _)
        · exact Or.inl (List.mem_filter.mp h).1
      · exact Or.inr (List.mem_cons_of_mem _ h)
    · rintro p (hp | hp)
      · by_cases hk : p.1 = e.1
        · obtain ⟨q, hq, hq1⟩ := hkeys (e.1, e.2) (Or.inl (List.mem_cons_self _ _))
          exact ⟨q, hq, by rw [hq1, hk]⟩
        · exact hkeys p (Or.inl (List.mem_cons_of_mem _
            (List.mem_filter.mpr ⟨hp, by simpa using hk⟩)))
      · rcases List.mem_cons.mp hp with h | h
        · obtain ⟨q, hq, hq1⟩ := hkeys (e.1, e.2) (Or.inl (List.mem_cons_self _ _))
          exact ⟨q, hq, by rw [hq1, h]⟩
        · exact hkeys p (Or.inr h)

/-- C9: `dumpRuleCounterMap` builds its mapping anew on every call.  When the
store enumerates no entry it returns the empty, non-nil mapping, not a failure;
in general it returns a mapping all of whose entries were enumerated by this
call, and that has a count for every key enumerated. -/
theorem dumpRuleCounterMap_fresh {K : Type} [DecidableEq K] (entries : List (K × Nat)) :
    (∃ m, dumpRuleCounterMap (Felix.mk (Except.ok []) : Felix K) = some m ∧
      m ≠ PolicyMapMem.nil ∧ m.len = 0) ∧
    ∃ t, dumpRuleCounterMap (Felix.mk (Except.ok entries)) = some (PolicyMapMem.table t) ∧
      (∀ k v, t.lookup k = some v → (k, v) ∈ entries) ∧
      (∀ k v, (k, v) ∈ entries → (t.lookup k).isSome) := by
  refine ⟨⟨PolicyMapMem.table [], rfl, by simp, rfl⟩, ?_⟩
  obtain ⟨t, hrun, hfrom, hkeys⟩ := iter_fold entries []
  refine ⟨t, by simpa [dumpRuleCounterMap, dumpBPFMap, PolicyMapMem.make] using hrun, ?_, ?_⟩
  · intro k v hlook
    obtain ⟨l1, l2, ht, -⟩ := List.lookup_eq_some_iff.mp hlook
    rcases hfrom (k, v) (by rw [ht]; simp) with h | h
    · cases h
    · exact h
  · intro k v hmem
    obtain ⟨q, hq, hq1⟩ := hkeys (k, v) (Or.inr hmem)
    exact List.lookup_isSome_iff.mpr ⟨q, hq, by simpa using hq1.symm⟩

end Calico
